import Mathlib

/-!
Verification development for the link-based question-answering pipeline
(`chromaTest.py`).  The Python source is shallowly embedded: pure string
manipulation is modelled over `List Char`, Python `float` cosine distances are
modelled by `CosDist` (a rational number or the non-comparable `nan`), and the
external HTTP collaborators (content fetcher, Ollama generation endpoint) are
modelled by explicit outcome parameters.
-/

/-- Embedding of CPython substring search used by the `in` operator: does the
second list start with the first one?  (Prefix test over characters.) -/
def leadsWith : List Char → List Char → Bool
  | [], _ => true
  | _ :: _, [] => false
  | a :: as, b :: bs => a == b && leadsWith as bs

/-- Embedding of Python `needle in hay` on strings, over character lists:
true when `needle` occurs contiguously inside `hay` (the empty needle occurs
in every string). -/
def hasSub (needle : List Char) : List Char → Bool
  | [] => needle.isEmpty
  | c :: t => leadsWith needle (c :: t) || hasSub needle t

/-- Attach a character to the front of the first fragment of a split result. -/
def consHead (c : Char) : List (List Char) → List (List Char)
  | [] => [[c]]
  | f :: fs => (c :: f) :: fs

/-- Embedding of Python `text.split(". ")`: left-to-right scan splitting on
each non-overlapping occurrence of period-space.  `n` fragments require `n-1`
separators; the result is never empty. -/
def splitDotSpace : List Char → List (List Char)
  | [] => [[]]
  | [c] => [[c]]
  | c1 :: c2 :: rest =>
    if c1 = '.' && c2 = ' ' then [] :: splitDotSpace rest
    else consHead c1 (splitDotSpace (c2 :: rest))

/-- Embedding of Python `str.split()` with no argument, over character lists:
every whitespace character is a cut point (empty runs are discarded by the
caller, matching Python, which returns only the non-empty fragments). -/
def wsSplit : List Char → List (List Char)
  | [] => [[]]
  | c :: rest => if c.isWhitespace then [] :: wsSplit rest else consHead c (wsSplit rest)

/-- Embedding of Python `str.strip()` (no argument): drop leading and trailing
whitespace characters. -/
def trimChars (l : List Char) : List Char :=
  (((l.dropWhile Char.isWhitespace).reverse).dropWhile Char.isWhitespace).reverse

/-- Embedding of Python `str.lower()` (character-wise, as relevant for the
ASCII queries and keywords the claims exercise). -/
def pyLower (s : String) : String := String.mk (s.data.map Char.toLower)

/-- Embedding of Python `str.strip()` on `String`. -/
def pyStrip (s : String) : String := String.mk (trimChars s.data)

/-- Embedding of Python `sep.join(parts)`. -/
def joinWith (sep : String) : List String → String
  | [] => ""
  | [s] => s
  | s :: rest => s ++ sep ++ joinWith sep rest

/-- The list comprehension `[s.strip() for s in sentences if s.strip()]` from
`TextProcessor.split_into_sentences`: strip every fragment, keep the non-empty
ones. -/
def stripFilter (frags : List (List Char)) : List String :=
  ((frags.map trimChars).filter (fun f => !f.isEmpty)).map String.mk

/-- `Config.STOPWORDS` from the source. -/
def STOPWORDS : List String :=
  ["nedir", "nasıl", "ne", "için", "ile", "ve", "bir", "bu", "şu", "zaman"]

/-- `Config.RELEVANCE_THRESHOLD` from the source (0.5). -/
def RELEVANCE_THRESHOLD : Rat := mkRat 1 2

/-- `TextProcessor.split_into_sentences`: empty text gives no sentences
(`if not text`); otherwise split on period-space, strip each fragment and
discard the fragments that are empty after stripping. -/
def split_into_sentences (text : String) : List String :=
  if text = "" then [] else stripFilter (splitDotSpace text.data)

/-- The tokenization step of `TextProcessor.extract_keywords`:
`query.lower().split()`. -/
def pyTokens (query : String) : List String :=
  ((wsSplit (pyLower query).data).filter (fun w => !w.isEmpty)).map String.mk

/-- `TextProcessor.extract_keywords`: lowercase, split on whitespace, drop the
tokens that are stop words. -/
def extract_keywords (query : String) : List String :=
  (pyTokens query).filter (fun w => !(STOPWORDS.contains w))

/-- `TextProcessor.is_sentence_relevant`: some keyword occurs as a substring
of the lowercased sentence (`any` over the keyword list). -/
def is_sentence_relevant (sentence : String) (query_keywords : List String) : Bool :=
  query_keywords.any (fun k => hasSub k.data (pyLower sentence).data)

/-- A cosine distance as handed back by the vector index: either an ordinary
(rational-valued) float or the non-comparable `nan`.  Every Python comparison
against `nan` is false. -/
inductive CosDist where
  | nan : CosDist
  | fin : Rat → CosDist
deriving DecidableEq

/-- Embedding of the Python comparison `distance <= threshold` (false for
`nan`). -/
def distLe : CosDist → Rat → Bool
  | CosDist.nan, _ => false
  | CosDist.fin q, t => decide (q ≤ t)

/-- Embedding of the Python comparison `distance > threshold` (false for
`nan`). -/
def distGt : CosDist → Rat → Bool
  | CosDist.nan, _ => false
  | CosDist.fin q, t => decide (t < q)

/-- The admission loop of `RAGSystem.process_query` (lines 202-206) over the
already-zipped `(sentence, distance)` pairs: start from the empty list and
append each sentence whose text passes `is_sentence_relevant` and whose
distance is at most the threshold. -/
def gateAdmittedPairs (kws : List String) (thr : Rat) (pairs : List (String × CosDist)) :
    List String :=
  pairs.foldl
    (fun acc p => if is_sentence_relevant p.1 kws && distLe p.2 thr then acc ++ [p.1] else acc)
    []

/-- The admission loop of `RAGSystem.process_query` including the
`zip(selected_sentences, distances)` pairing (unpaired tails are dropped by
`zip`, as in Python). -/
def gateAdmitted (sents : List String) (dists : List CosDist) (kws : List String) (thr : Rat) :
    List String :=
  gateAdmittedPairs kws thr (sents.zip dists)

/-- The veto test `distances and distances[0] > Config.RELEVANCE_THRESHOLD`
from line 211: false on an empty distance list, otherwise the strict
comparison on the first distance. -/
def firstExceeds (dists : List CosDist) (thr : Rat) : Bool :=
  match dists with
  | [] => false
  | d :: _ => distGt d thr

/-- The decision computed by `RAGSystem.process_query`: either the canned
not-found reply (no synthesizer call) or a synthesizer call on the admitted
context sentences. -/
inductive QueryDecision where
  | notFound : QueryDecision
  | answer : List String → QueryDecision
deriving DecidableEq

/-- The decision logic of `RAGSystem.process_query` (lines 200-214): extract
keywords, run the admission loop at the fixed threshold, and return the
not-found decision when no sentence was admitted or when the first candidate's
distance strictly exceeds the threshold. -/
def process_query_core (query : String) (selected : List String) (dists : List CosDist) :
    QueryDecision :=
  let kws := extract_keywords query
  let relevant := gateAdmitted selected dists kws RELEVANCE_THRESHOLD
  if relevant.isEmpty || firstExceeds dists RELEVANCE_THRESHOLD then QueryDecision.notFound
  else QueryDecision.answer relevant

/-- What the Ollama HTTP call can come back with, as observed by
`LLMService.generate_answer`: a 2xx JSON body whose "response" field is
present or absent, or one of the failure modes.  In the source the handler
`except requests.exceptions.ConnectionError` catches connection failures,
while a timeout of the `requests.post(..., timeout=30)` call raises
`requests.exceptions.Timeout`, which is not a `ConnectionError` and therefore
falls through to the generic `except Exception` handler, exactly like any
other failure. -/
inductive SynthesisOutcome where
  | success : Option String → SynthesisOutcome
  | connectionFailure : SynthesisOutcome
  | timeoutExpiry : SynthesisOutcome
  | otherFailure : SynthesisOutcome
deriving DecidableEq

/-- The prompt f-string of `LLMService.generate_answer` (line 137). -/
def build_prompt (question context : String) : String :=
  "Soru: " ++ question ++ "\nBağlam: " ++ context ++ "\nYanıt:"

/-- `LLMService.generate_answer`, with the HTTP POST modelled by `synth`
applied to the prompt: empty context returns the canned reply immediately;
a successful call returns the stripped "response" field (defaulting to the
canned reply when the field is absent); the `ConnectionError` handler and the
generic `Exception` handler return their fixed strings.  A timeout is caught
by the generic handler (see `SynthesisOutcome`). -/
def generate_answer (synth : String → SynthesisOutcome) (question : String)
    (context_sentences : List String) : String :=
  if context_sentences.isEmpty then "Bunu bulamadım."
  else
    let context := joinWith " " context_sentences
    let prompt := build_prompt question context
    match synth prompt with
    | SynthesisOutcome.success resp => pyStrip (resp.getD "Bunu bulamadım.")
    | SynthesisOutcome.connectionFailure =>
      "Ollama sunucusuna bağlanılamadı. Lütfen \x27ollama serve\x27 komutunu çalıştırarak sunucuyu başlatın."
    | SynthesisOutcome.timeoutExpiry => "Yanıt üretilirken bir hata oluştu."
    | SynthesisOutcome.otherFailure => "Yanıt üretilirken bir hata oluştu."

/-- `RAGSystem.process_query` end to end: the not-found decision returns the
sentinel string, otherwise the answer is produced by
`LLMService.generate_answer` on the admitted sentences. -/
def process_query_full (synth : String → SynthesisOutcome) (query : String)
    (selected : List String) (dists : List CosDist) : String :=
  match process_query_core query selected dists with
  | QueryDecision.notFound => "Bunu bulamadım."
  | QueryDecision.answer ctx => generate_answer synth query ctx

/-- What one call of `ContentFetcher.fetch_from_url` can observe: an exception
(network error, or `raise_for_status` on a non-2xx reply) or a 2xx page whose
paragraph texts were collected. -/
inductive FetchOutcome where
  | httpError : FetchOutcome
  | content : List String → FetchOutcome
deriving DecidableEq

/-- `ContentFetcher.fetch_from_url`: exceptions give `none`; otherwise the
paragraphs are joined with single spaces and `none` is returned when the
joined text is empty after stripping (`if not content.strip()`). -/
def fetch_from_url (outcome : FetchOutcome) : Option String :=
  match outcome with
  | FetchOutcome.httpError => none
  | FetchOutcome.content paras =>
    let c := joinWith " " paras
    if trimChars c.data = [] then none else some c

/-- `RAGSystem.load_content_from_links`, with the per-URL fetch modelled by
`fetch`: start from the empty list and, for each link in order, extend with
the sentences of the fetched content when the fetch produced truthy (non-empty)
content. -/
def load_content_from_links (fetch : String → Option String) (links : List String) :
    List String :=
  links.foldl
    (fun acc link =>
      match fetch link with
      | none => acc
      | some c => if c = "" then acc else acc ++ split_into_sentences c)
    []

/-- The admission loop is a filter: appending to an accumulator step by step
produces the accumulator followed by the kept sentences. -/
theorem gateAdmittedPairs_foldl_acc (kws : List String) (thr : Rat) :
    ∀ (pairs : List (String × CosDist)) (acc : List String),
      pairs.foldl
        (fun acc p =>
          if is_sentence_relevant p.1 kws && distLe p.2 thr then acc ++ [p.1] else acc)
        acc =
      acc ++
        (pairs.filter (fun p => is_sentence_relevant p.1 kws && distLe p.2 thr)).map
          Prod.fst := by
  intro pairs
  induction pairs with
  | nil => intro acc; simp
  | cons p rest ih =>
    intro acc
    simp only [List.foldl_cons, List.filter_cons]
    by_cases h : (is_sentence_relevant p.1 kws && distLe p.2 thr) = true
    · rw [if_pos h, if_pos h, ih, List.map_cons]
      simp
    · rw [if_neg h, if_neg h, ih]

/-- The admission loop keeps exactly the pairs passing both tests, first
components in order. -/
theorem gateAdmittedPairs_eq_filter (kws : List String) (thr : Rat)
    (pairs : List (String × CosDist)) :
    gateAdmittedPairs kws thr pairs =
      (pairs.filter (fun p => is_sentence_relevant p.1 kws && distLe p.2 thr)).map
        Prod.fst := by
  have h := gateAdmittedPairs_foldl_acc kws thr pairs []
  simpa [gateAdmittedPairs] using h

/-- The lexical test equals the reading given in the specification: the
keyword list is non-empty and some keyword occurs in the lowercased
sentence. -/
theorem is_sentence_relevant_eq_spec (sentence : String) (kws : List String) :
    is_sentence_relevant sentence kws =
      (!kws.isEmpty && kws.any (fun k => hasSub k.data (pyLower sentence).data)) := by
  cases kws with
  | nil => simp [is_sentence_relevant]
  | cons k rest => simp [is_sentence_relevant]

/-- `consHead` never produces the empty split result. -/
theorem consHead_ne_nil (c : Char) (fs : List (List Char)) : consHead c fs ≠ [] := by
  cases fs <;> simp [consHead]

/-- `consHead` keeps the number of fragments of a non-empty split result. -/
theorem consHead_length (c : Char) (fs : List (List Char)) (h : fs ≠ []) :
    (consHead c fs).length = fs.length := by
  cases fs with
  | nil => exact absurd rfl h
  | cons f fs => simp [consHead]

/-- The period-space splitter always returns at least one fragment. -/
theorem splitDotSpace_ne_nil (l : List Char) : splitDotSpace l ≠ [] := by
  induction l using splitDotSpace.induct with
  | case1 => simp [splitDotSpace]
  | case2 c => simp [splitDotSpace]
  | case3 c1 c2 rest h ih => simp [splitDotSpace, h]
  | case4 c1 c2 rest h ih =>
    simp only [splitDotSpace, if_neg h]
    exact consHead_ne_nil c1 (splitDotSpace (c2 :: rest))

/-- A text ending in the period-space marker splits into at least two
fragments. -/
theorem splitDotSpace_sep_two_le (p : List Char) :
    2 ≤ (splitDotSpace (p ++ ['.', ' '])).length := by
  induction p using splitDotSpace.induct with
  | case1 => decide
  | case2 c =>
    have hds : (decide (('.' : Char) = ' ')) = false := rfl
    simp [splitDotSpace, consHead, hds]
  | case3 c1 c2 rest h ih =>
    simp only [List.cons_append, splitDotSpace, if_pos h, List.length_cons, List.append_eq]
    omega
  | case4 c1 c2 rest h ih =>
    simp only [List.cons_append, splitDotSpace, if_neg h, List.append_eq]
    rw [consHead_length _ _ (splitDotSpace_ne_nil _)]
    simpa [List.cons_append] using ih

/-- A text ending in the period-space marker splits into its other fragments
followed by one final empty fragment. -/
theorem splitDotSpace_sep_last (p : List Char) :
    splitDotSpace (p ++ ['.', ' ']) =
      (splitDotSpace (p ++ ['.', ' '])).dropLast ++ [[]] := by
  induction p using splitDotSpace.induct with
  | case1 => decide
  | case2 c =>
    have hds : (decide (('.' : Char) = ' ')) = false := rfl
    simp [splitDotSpace, consHead, hds, List.dropLast]
  | case3 c1 c2 rest h ih =>
    have hne := splitDotSpace_ne_nil (rest ++ ['.', ' '])
    simp only [List.cons_append, splitDotSpace, if_pos h]
    cases hx : splitDotSpace (rest ++ ['.', ' ']) with
    | nil => exact absurd hx hne
    | cons f fs =>
      rw [hx] at ih
      simp only [List.dropLast_cons₂, List.cons_append]
      exact congrArg (List.cons []) ih
  | case4 c1 c2 rest h ih =>
    have h2 : 2 ≤ (splitDotSpace ((c2 :: rest) ++ ['.', ' '])).length :=
      splitDotSpace_sep_two_le (c2 :: rest)
    simp only [List.cons_append] at h2 ih
    simp only [List.cons_append, splitDotSpace, if_neg h]
    cases hx : splitDotSpace (c2 :: (rest ++ ['.', ' '])) with
    | nil => exact absurd hx (splitDotSpace_ne_nil _)
    | cons f fs =>
      rw [hx] at ih h2
      cases fs with
      | nil => simp at h2
      | cons g gs =>
        simp only [consHead, List.dropLast_cons₂, List.cons_append]
        simp only [List.dropLast_cons₂] at ih
        rw [List.cons_append] at ih
        exact congrArg (List.cons (c1 :: f)) (List.cons.inj ih).2

/-- Splitting a text of the form `p ++ ". " ++ t` first yields the fragments
of `p ++ ". "` (except its final empty fragment) and then, independently, the
fragments of `t`: the scanner always consumes the marker at the boundary. -/
theorem splitDotSpace_append_sep (p t : List Char) :
    splitDotSpace (p ++ '.' :: ' ' :: t) =
      (splitDotSpace (p ++ ['.', ' '])).dropLast ++ splitDotSpace t := by
  induction p using splitDotSpace.induct with
  | case1 => simp [splitDotSpace, List.dropLast]
  | case2 c =>
    have hds : (decide (('.' : Char) = ' ')) = false := rfl
    simp [splitDotSpace, consHead, hds, List.dropLast]
  | case3 c1 c2 rest h ih =>
    have hne := splitDotSpace_ne_nil (rest ++ ['.', ' '])
    simp only [List.cons_append, splitDotSpace, if_pos h, List.append_eq]
    rw [ih]
    cases hx : splitDotSpace (rest ++ ['.', ' ']) with
    | nil => exact absurd hx hne
    | cons f fs => simp [List.dropLast_cons₂]
  | case4 c1 c2 rest h ih =>
    have h2 := splitDotSpace_sep_two_le (c2 :: rest)
    simp only [List.cons_append] at h2 ih
    simp only [List.cons_append, splitDotSpace, if_neg h, List.append_eq]
    rw [ih]
    cases hx : splitDotSpace (c2 :: (rest ++ ['.', ' '])) with
    | nil => exact absurd hx (splitDotSpace_ne_nil _)
    | cons f fs =>
      cases fs with
      | nil => rw [hx] at h2; simp at h2
      | cons g gs => simp [consHead, List.dropLast_cons₂]

/-- A text with no occurrence of the period-space marker is a single
fragment. -/
theorem splitDotSpace_of_not_hasSub (l : List Char)
    (h : hasSub ['.', ' '] l = false) : splitDotSpace l = [l] := by
  induction l using splitDotSpace.induct with
  | case1 => simp [splitDotSpace]
  | case2 c => simp [splitDotSpace]
  | case3 c1 c2 rest hc ih =>
    exfalso
    simp only [Bool.and_eq_true, decide_eq_true_eq] at hc
    obtain ⟨h1, h2⟩ := hc
    subst h1; subst h2
    simp [hasSub, leadsWith] at h
  | case4 c1 c2 rest hc ih =>
    have ht : hasSub ['.', ' '] (c2 :: rest) = false := by
      simp only [hasSub, Bool.or_eq_false_iff] at h ⊢
      exact h.2
    simp only [splitDotSpace, if_neg hc]
    rw [ih ht]
    simp [consHead]

/-- A marker-free text followed by the marker splits into exactly that text
and one trailing empty fragment. -/
theorem splitDotSpace_noSep_sep (s : List Char)
    (h : hasSub ['.', ' '] s = false) :
    splitDotSpace (s ++ ['.', ' ']) = [s, []] := by
  induction s using splitDotSpace.induct with
  | case1 => decide
  | case2 c =>
    have hds : (decide (('.' : Char) = ' ')) = false := rfl
    simp [splitDotSpace, consHead, hds]
  | case3 c1 c2 rest hc ih =>
    exfalso
    simp only [Bool.and_eq_true, decide_eq_true_eq] at hc
    obtain ⟨h1, h2⟩ := hc
    subst h1; subst h2
    simp [hasSub, leadsWith] at h
  | case4 c1 c2 rest hc ih =>
    have ht : hasSub ['.', ' '] (c2 :: rest) = false := by
      simp only [hasSub, Bool.or_eq_false_iff] at h ⊢
      exact h.2
    simp only [List.cons_append, splitDotSpace, if_neg hc, List.append_eq]
    rw [show c2 :: (rest ++ ['.', ' ']) = (c2 :: rest) ++ ['.', ' '] from rfl, ih ht]
    simp [consHead]

/-- A character surviving at the front of `dropWhile` fails the predicate. -/
theorem dropWhile_head?_false (p : Char → Bool) (l : List Char) :
    ∀ c, (l.dropWhile p).head? = some c → p c = false := by
  induction l with
  | nil => intro c h; simp at h
  | cons a t ih =>
    intro c h
    rw [List.dropWhile_cons] at h
    by_cases hp : p a = true
    · rw [if_pos hp] at h
      exact ih c h
    · rw [if_neg hp] at h
      simp only [List.head?_cons, Option.some.injEq] at h
      subst h
      simpa [Bool.not_eq_true] using hp

/-- `dropWhile` is the identity when the head already fails the predicate. -/
theorem dropWhile_eq_self_of_head? (p : Char → Bool) (l : List Char)
    (h : ∀ c, l.head? = some c → p c = false) : l.dropWhile p = l := by
  cases l with
  | nil => simp
  | cons a t =>
    have ha := h a rfl
    simp [List.dropWhile_cons, ha]

/-- `dropWhile` keeps the last element of the list when its result is
non-empty. -/
theorem dropWhile_getLast? (p : Char → Bool) (l : List Char)
    (h : l.dropWhile p ≠ []) : (l.dropWhile p).getLast? = l.getLast? := by
  induction l with
  | nil => simp at h
  | cons a t ih =>
    rw [List.dropWhile_cons] at h ⊢
    by_cases hp : p a = true
    · rw [if_pos hp] at h ⊢
      have ht : t ≠ [] := by
        intro he
        subst he
        simp at h
      cases t with
      | nil => exact absurd rfl ht
      | cons b t2 => rw [ih h, List.getLast?_cons_cons]
    · rw [if_neg hp]

/-- The first character of a stripped text is not whitespace. -/
theorem trimChars_head?_false (l : List Char) :
    ∀ c, (trimChars l).head? = some c → c.isWhitespace = false := by
  intro c h
  unfold trimChars at h
  rw [List.head?_reverse] at h
  by_cases hb : ((l.dropWhile Char.isWhitespace).reverse).dropWhile Char.isWhitespace = []
  · rw [hb] at h; simp at h
  · rw [dropWhile_getLast? _ _ hb, List.getLast?_reverse] at h
    exact dropWhile_head?_false _ _ c h

/-- The last character of a stripped text is not whitespace. -/
theorem trimChars_getLast?_false (l : List Char) :
    ∀ c, (trimChars l).getLast? = some c → c.isWhitespace = false := by
  intro c h
  unfold trimChars at h
  rw [List.getLast?_reverse] at h
  exact dropWhile_head?_false _ _ c h

/-- Stripping a text whose first and last characters are not whitespace does
nothing. -/
theorem trimChars_eq_self (l : List Char)
    (h1 : ∀ c, l.head? = some c → c.isWhitespace = false)
    (h2 : ∀ c, l.getLast? = some c → c.isWhitespace = false) : trimChars l = l := by
  unfold trimChars
  rw [dropWhile_eq_self_of_head? _ _ h1]
  rw [dropWhile_eq_self_of_head? _ _ (by
    intro c hc
    rw [List.head?_reverse] at hc
    exact h2 c hc)]
  exact List.reverse_reverse l

/-- Stripping is idempotent. -/
theorem trimChars_idem (l : List Char) : trimChars (trimChars l) = trimChars l :=
  trimChars_eq_self _ (trimChars_head?_false l) (trimChars_getLast?_false l)

/-- Stripping the empty text gives the empty text. -/
theorem trimChars_nil : trimChars [] = [] := rfl

/-- The empty-text guard is redundant: the splitter of the empty text yields
one empty fragment, which the strip-and-filter step removes. -/
theorem split_into_sentences_eq (t : String) :
    split_into_sentences t = stripFilter (splitDotSpace t.data) := by
  by_cases h : t = ""
  · subst h; rfl
  · simp [split_into_sentences, h]

/-- Strip-and-filter distributes over fragment concatenation. -/
theorem stripFilter_append (fs gs : List (List Char)) :
    stripFilter (fs ++ gs) = stripFilter fs ++ stripFilter gs := by
  simp [stripFilter]

/-- Sentence splitting distributes over the period-space marker: the marker is
always consumed as a boundary, whatever surrounds it. -/
theorem split_into_sentences_append_sep (p t : String) :
    split_into_sentences (p ++ ". " ++ t) =
      split_into_sentences (p ++ ". ") ++ split_into_sentences t := by
  rw [split_into_sentences_eq, split_into_sentences_eq, split_into_sentences_eq]
  have hd : (p ++ ". " ++ t).data = p.data ++ '.' :: ' ' :: t.data := by
    rw [String.data_append, String.data_append]
    simp [show (". " : String).data = ['.', ' '] from rfl]
  have hd2 : (p ++ ". ").data = p.data ++ ['.', ' '] := by
    rw [String.data_append]
  rw [hd, hd2, splitDotSpace_append_sep, stripFilter_append]
  congr 1
  conv_rhs => rw [splitDotSpace_sep_last p.data]
  rw [stripFilter_append]
  simp [stripFilter, trimChars_nil]

/-- A marker-free text with non-empty stripped content is returned as the
single (stripped) sentence. -/
theorem split_into_sentences_noSep (t : String)
    (h1 : hasSub ['.', ' '] t.data = false) (h2 : trimChars t.data ≠ []) :
    split_into_sentences t = [String.mk (trimChars t.data)] := by
  rw [split_into_sentences_eq, splitDotSpace_of_not_hasSub t.data h1]
  simp [stripFilter, h2]

/-- A marker-free, already-stripped, non-empty sentence followed by the marker
splits back into exactly that sentence. -/
theorem split_sentence_marker (s : String)
    (h1 : hasSub ['.', ' '] s.data = false) (h2 : trimChars s.data = s.data)
    (h3 : s.data ≠ []) : split_into_sentences (s ++ ". ") = [s] := by
  rw [split_into_sentences_eq]
  have hd2 : (s ++ ". ").data = s.data ++ ['.', ' '] := by
    rw [String.data_append]
  rw [hd2, splitDotSpace_noSep_sep s.data h1]
  simp [stripFilter, trimChars_nil, h2, h3]

example : split_into_sentences "" = [] := by decide
example : split_into_sentences "a. b.  c" = ["a", "b", "c"] := by decide
example : split_into_sentences "a. . b" = ["a", "b"] := by decide
example : extract_keywords "nedir bu bilgi" = ["bilgi"] := by decide
example : is_sentence_relevant "Elma kırmızıdır" ["elma"] = true := by decide
example : is_sentence_relevant "Elma kırmızıdır" [] = false := by decide
example :
    gateAdmitted ["elma kırmızıdır", "araba hızlıdır"] [CosDist.fin (mkRat 2 10), CosDist.fin (mkRat 9 10)]
      ["elma"] (mkRat 1 2) = ["elma kırmızıdır"] := by decide
example :
    process_query_core "elma" ["elma kırmızıdır", "araba hızlıdır"]
      [CosDist.fin (mkRat 2 10), CosDist.fin (mkRat 9 10)] = QueryDecision.answer ["elma kırmızıdır"] := by
  decide
example :
    process_query_core "b" ["a", "b"] [CosDist.fin (mkRat 6 10), CosDist.fin (mkRat 4 10)] =
      QueryDecision.notFound := by decide
example :
    gateAdmitted ["a", "b"] [CosDist.fin (mkRat 6 10), CosDist.fin (mkRat 4 10)] (extract_keywords "b")
      RELEVANCE_THRESHOLD = ["b"] := by decide
example :
    process_query_full (fun _ => SynthesisOutcome.success (some " a ")) "e" ["ex"]
      [CosDist.fin (mkRat 1 5)] = "a" := by decide
example : generate_answer (fun _ => SynthesisOutcome.success none) "q" ["c"] = "Bunu bulamadım." := by decide
example : split_into_sentences (joinWith "\n" ["a", "b"]) = ["a\nb"] := by decide

/-- `zip` only consumes the paired prefixes: taking each list to the other's
length changes nothing. -/
theorem zip_take_length {α β : Type} (as : List α) (bs : List β) :
    as.zip bs = (as.take bs.length).zip (bs.take as.length) := by
  induction as generalizing bs with
  | nil => simp
  | cons a as ih =>
    cases bs with
    | nil => simp
    | cons b bs =>
      simp only [List.length_cons, List.take_succ_cons, List.zip_cons_cons]
      rw [ih bs]

/-- C1: a candidate is admitted by the relevance gate if and only if the
keyword list is non-empty and some keyword occurs as a substring of the
candidate's lowercased text, and its distance is at most the threshold; the
admitted sentences keep the input order (they are the first components of the
filtered pair list); an empty keyword list admits nothing. -/
theorem C1_gate_admission :
    (∀ (sents : List String) (dists : List CosDist) (kws : List String) (thr : Rat),
      gateAdmitted sents dists kws thr =
        ((sents.zip dists).filter
          (fun p =>
            (!kws.isEmpty && kws.any (fun k => hasSub k.data (pyLower p.1).data)) &&
              distLe p.2 thr)).map Prod.fst) ∧
    (∀ (sents : List String) (dists : List CosDist) (thr : Rat),
      gateAdmitted sents dists [] thr = []) := by
  constructor
  · intro sents dists kws thr
    rw [gateAdmitted, gateAdmittedPairs_eq_filter]
    congr 1
    apply List.filter_congr
    intro p hp
    rw [is_sentence_relevant_eq_spec]
  · intro sents dists thr
    rw [gateAdmitted, gateAdmittedPairs_eq_filter]
    simp [is_sentence_relevant]

/-- C2: the orchestrator decides not-found (returning the fixed sentinel
without any synthesizer call) exactly when no sentence was admitted or the
first candidate's distance exceeds the threshold; the veto reads the first
candidate's distance even when that candidate was not admitted, witnessed by
an input whose admitted sentence is the second candidate while the decision is
still not-found. -/
theorem C2_not_found_veto :
    (∀ (q : String) (sel : List String) (dists : List CosDist),
      process_query_core q sel dists = QueryDecision.notFound ↔
        (gateAdmitted sel dists (extract_keywords q) RELEVANCE_THRESHOLD = [] ∨
          firstExceeds dists RELEVANCE_THRESHOLD = true)) ∧
    (∀ (synth : String → SynthesisOutcome) (q : String) (sel : List String)
        (dists : List CosDist),
      process_query_core q sel dists = QueryDecision.notFound →
        process_query_full synth q sel dists = "Bunu bulamadım.") ∧
    (process_query_core "b" ["a", "b"] [CosDist.fin (mkRat 6 10), CosDist.fin (mkRat 4 10)] =
        QueryDecision.notFound ∧
      gateAdmitted ["a", "b"] [CosDist.fin (mkRat 6 10), CosDist.fin (mkRat 4 10)]
          (extract_keywords "b") RELEVANCE_THRESHOLD = ["b"]) := by
  refine ⟨?_, ?_, by decide, by decide⟩
  · intro q sel dists
    simp only [process_query_core]
    by_cases hc :
        ((gateAdmitted sel dists (extract_keywords q) RELEVANCE_THRESHOLD).isEmpty ||
          firstExceeds dists RELEVANCE_THRESHOLD) = true
    · rw [if_pos hc]
      simp only [Bool.or_eq_true, List.isEmpty_iff] at hc
      simp [hc]
    · rw [if_neg hc]
      have hc2 := hc
      simp only [Bool.or_eq_true, List.isEmpty_iff, not_or] at hc2
      simp [hc2.1, hc2.2]
  · intro synth q sel dists h
    simp [process_query_full, h]

/-- Witness for C2: on the concrete veto input the full pipeline returns the
sentinel string. -/
theorem C2_not_found_veto_witness :
    process_query_full (fun _ => SynthesisOutcome.otherFailure) "b" ["a", "b"]
      [CosDist.fin (mkRat 6 10), CosDist.fin (mkRat 4 10)] = "Bunu bulamadım." :=
  C2_not_found_veto.2.1 (fun _ => SynthesisOutcome.otherFailure) "b" ["a", "b"]
    [CosDist.fin (mkRat 6 10), CosDist.fin (mkRat 4 10)] (by decide)

/-- C3: the relevance gate is a total function; on the empty candidate
sequence it admits nothing and the decision is not-found; a candidate whose
distance is the non-comparable `nan` is skipped without aborting the scan of
the other candidates; mismatched sentence/distance list lengths only drop the
unpaired tail. -/
theorem C3_gate_totality :
    (∀ (kws : List String) (thr : Rat), gateAdmitted [] [] kws thr = []) ∧
    (∀ q : String, process_query_core q [] [] = QueryDecision.notFound) ∧
    (∀ (kws : List String) (thr : Rat) (p1 p2 : List (String × CosDist)) (x : String),
      gateAdmittedPairs kws thr (p1 ++ (x, CosDist.nan) :: p2) =
        gateAdmittedPairs kws thr (p1 ++ p2)) ∧
    (∀ (sents : List String) (dists : List CosDist) (kws : List String) (thr : Rat),
      gateAdmitted sents dists kws thr =
        gateAdmitted (sents.take dists.length) (dists.take sents.length) kws thr) := by
  refine ⟨?_, ?_, ?_, ?_⟩
  · intro kws thr; rfl
  · intro q; rfl
  · intro kws thr p1 p2 x
    rw [gateAdmittedPairs_eq_filter, gateAdmittedPairs_eq_filter,
      List.filter_append, List.filter_append, List.filter_cons]
    simp [distLe]
  · intro sents dists kws thr
    rw [gateAdmitted, gateAdmitted, zip_take_length]

/-- Every sentence produced by strip-and-filter is already stripped and
non-empty. -/
theorem stripFilter_all (frags : List (List Char)) :
    (stripFilter frags).all (fun s => pyStrip s == s && !(s == "")) = true := by
  simp only [stripFilter, List.all_eq_true]
  intro s hs
  simp only [List.mem_map, List.mem_filter] at hs
  obtain ⟨f, ⟨hf, hne⟩, rfl⟩ := hs
  obtain ⟨g, hg, rfl⟩ := hf
  rw [Bool.and_eq_true]
  have hne2 : ({ data := trimChars g } : String) ≠ "" := by
    intro he
    have h3 : trimChars g = [] := congrArg String.data he
    rw [h3] at hne
    simp at hne
  refine ⟨?_, ?_⟩
  · simp [pyStrip, trimChars_idem]
  · simp [hne2]

/-- A string other than the empty string has a non-empty character list. -/
theorem data_ne_nil_of_ne_empty (s : String) (h : s ≠ "") : s.data ≠ [] := by
  intro hd
  apply h
  cases s with
  | mk d =>
    have hd2 : d = [] := hd
    subst hd2
    rfl

/-- C6: segmentation returns no sentence on the empty input; every returned
sentence is stripped and non-empty; the period-space marker always acts as a
boundary (so fragment order follows text order); and a trailing fragment with
no marker of its own is still captured, as the single stripped sentence of a
marker-free text. -/
theorem C6_segmentation :
    (split_into_sentences "" = []) ∧
    (∀ text : String,
      (split_into_sentences text).all (fun s => pyStrip s == s && !(s == "")) = true) ∧
    (∀ p t : String,
      split_into_sentences (p ++ ". " ++ t) =
        split_into_sentences (p ++ ". ") ++ split_into_sentences t) ∧
    (∀ t : String, hasSub ['.', ' '] t.data = false → trimChars t.data ≠ [] →
      split_into_sentences t = [String.mk (trimChars t.data)]) := by
  refine ⟨rfl, ?_, split_into_sentences_append_sep, split_into_sentences_noSep⟩
  intro text
  rw [split_into_sentences_eq]
  exact stripFilter_all _

/-- Witness for C6: a marker-free text is returned as its own single
sentence. -/
theorem C6_segmentation_witness :
    hasSub ['.', ' '] ("tek parca").data = false ∧
      split_into_sentences "tek parca" = [String.mk (trimChars ("tek parca").data)] :=
  ⟨by decide, C6_segmentation.2.2.2 "tek parca" (by decide) (by decide)⟩

/-- C7 fails as stated: sentences joined one per line are not re-segmented,
because newline is not the period-space marker; the two sentences come back as
one. -/
theorem C7_counterexample :
    split_into_sentences (joinWith "\n" ["a", "b"]) ≠ ["a", "b"] := by decide

/-- C7 (amended): segmentation is idempotent when the already-segmented
sentences are joined by the period-space marker itself (rather than one per
line): marker-free, stripped, non-empty sentences joined by ". " are returned
unchanged and in order. -/
theorem C7_idempotence_amended :
    ∀ sents : List String,
      sents.all (fun s =>
        !hasSub ['.', ' '] s.data && (pyStrip s == s) && !(s == "")) = true →
      split_into_sentences (joinWith ". " sents) = sents := by
  intro sents
  induction sents with
  | nil => intro _; rfl
  | cons s rest ih =>
    intro h
    rw [List.all_cons, Bool.and_eq_true] at h
    obtain ⟨hs, hrest⟩ := h
    simp only [Bool.and_eq_true] at hs
    obtain ⟨⟨h1, h2⟩, h3⟩ := hs
    have h1f : hasSub ['.', ' '] s.data = false := by simpa using h1
    have hstrip : trimChars s.data = s.data := by
      have he : pyStrip s = s := by simpa using h2
      exact congrArg String.data he
    have hsne : s ≠ "" := by simpa using h3
    have hdata : s.data ≠ [] := data_ne_nil_of_ne_empty s hsne
    cases rest with
    | nil =>
      show split_into_sentences s = [s]
      rw [split_into_sentences_noSep s h1f (by rw [hstrip]; exact hdata), hstrip]
    | cons r rs =>
      have hj : joinWith ". " (s :: r :: rs) = s ++ ". " ++ joinWith ". " (r :: rs) := rfl
      rw [hj, split_into_sentences_append_sep,
        split_sentence_marker s h1f hstrip hdata, ih hrest]
      rfl

/-- Witness for C7 (amended): two sentences joined by the marker are returned
unchanged. -/
theorem C7_idempotence_amended_witness :
    split_into_sentences (joinWith ". " ["ab", "cd"]) = ["ab", "cd"] :=
  C7_idempotence_amended ["ab", "cd"] (by decide)

/-- C8: keyword extraction on the empty query is empty; a token is kept
exactly when it is one of the lowercased whitespace-separated tokens and not a
stop word; a query of only stop words yields no keywords; the reference query
keeps only its non-stop-word token; duplicates are kept (no deduplication). -/
theorem C8_keyword_extraction :
    (extract_keywords "" = []) ∧
    (∀ q w : String, w ∈ extract_keywords q ↔ w ∈ pyTokens q ∧ w ∉ STOPWORDS) ∧
    (∀ q : String, (∀ w ∈ pyTokens q, w ∈ STOPWORDS) → extract_keywords q = []) ∧
    (extract_keywords "nedir bu bilgi" = ["bilgi"]) ∧
    (extract_keywords "bilgi bilgi" = ["bilgi", "bilgi"]) := by
  refine ⟨by decide, ?_, ?_, by decide, by decide⟩
  · intro q w
    simp [extract_keywords, List.mem_filter]
  · intro q h
    rw [extract_keywords, List.filter_eq_nil_iff]
    intro w hw
    simp [h w hw]

/-- Witness for C8: a query made only of stop words extracts no keywords. -/
theorem C8_keyword_extraction_witness :
    extract_keywords "nedir bu" = [] :=
  C8_keyword_extraction.2.2.1 "nedir bu" (by decide)

/-- C4 fails as stated: a synthesis timeout is caught by the generic handler,
so the timeout fallback string and the other-failure fallback string are the
same string, not distinct ones. -/
theorem C4_counterexample :
    generate_answer (fun _ => SynthesisOutcome.timeoutExpiry) "soru" ["kaynak"] =
      generate_answer (fun _ => SynthesisOutcome.otherFailure) "soru" ["kaynak"] := rfl

/-- C4 (amended): every synthesis failure is recoverable and mapped to a fixed
fallback string returned to the caller, but there are only two distinct
fallback strings: connection failure has its own, while timeout and any other
failure share the generic one. -/
theorem C4_fallback_amended :
    (∀ (q : String) (ctx : List String), ctx ≠ [] →
      generate_answer (fun _ => SynthesisOutcome.timeoutExpiry) q ctx =
          "Yanıt üretilirken bir hata oluştu." ∧
        generate_answer (fun _ => SynthesisOutcome.otherFailure) q ctx =
          "Yanıt üretilirken bir hata oluştu." ∧
        generate_answer (fun _ => SynthesisOutcome.connectionFailure) q ctx =
          "Ollama sunucusuna bağlanılamadı. Lütfen \x27ollama serve\x27 komutunu çalıştırarak sunucuyu başlatın.") ∧
    ("Yanıt üretilirken bir hata oluştu." ≠
      "Ollama sunucusuna bağlanılamadı. Lütfen \x27ollama serve\x27 komutunu çalıştırarak sunucuyu başlatın.") := by
  constructor
  · intro q ctx h
    have hne : ctx.isEmpty = false := by simpa [List.isEmpty_iff] using h
    refine ⟨?_, ?_, ?_⟩ <;> simp [generate_answer, hne]
  · decide

/-- Witness for C4 (amended): the timeout fallback on a concrete call. -/
theorem C4_fallback_amended_witness :
    generate_answer (fun _ => SynthesisOutcome.timeoutExpiry) "soru" ["metin"] =
      "Yanıt üretilirken bir hata oluştu." :=
  (C4_fallback_amended.1 "soru" ["metin"] (by decide)).1

/-- C5 fails as stated: on an answerable query the pipeline strips the
synthesizer's successful result, so a result with surrounding whitespace is
not returned character-for-character. -/
theorem C5_counterexample :
    process_query_full (fun _ => SynthesisOutcome.success (some " a ")) "e" ["ex"]
        [CosDist.fin (mkRat 1 5)] = "a" ∧ ("a" : String) ≠ " a " :=
  ⟨by decide, by decide⟩

/-- C5 (amended): when the gate decides the query is answerable, the
orchestrator joins the admitted sentences with single spaces into the context
of the fixed prompt, invokes the synthesizer on it, and returns the
synthesizer's successful result stripped of leading and trailing whitespace
(hence verbatim exactly when the result carries none). -/
theorem C5_answer_path_amended :
    ∀ (synth : String → SynthesisOutcome) (q : String) (sel : List String)
      (dists : List CosDist) (ctx : List String) (resp : String),
      process_query_core q sel dists = QueryDecision.answer ctx →
      synth (build_prompt q (joinWith " " ctx)) = SynthesisOutcome.success (some resp) →
      process_query_full synth q sel dists = pyStrip resp := by
  intro synth q sel dists ctx resp hcore hsynth
  have hne : ctx.isEmpty = false := by
    have hcopy := hcore
    simp only [process_query_core] at hcopy
    by_cases hc :
        ((gateAdmitted sel dists (extract_keywords q) RELEVANCE_THRESHOLD).isEmpty ||
          firstExceeds dists RELEVANCE_THRESHOLD) = true
    · rw [if_pos hc] at hcopy
      exact absurd hcopy (by simp)
    · rw [if_neg hc] at hcopy
      simp only [QueryDecision.answer.injEq] at hcopy
      simp only [Bool.or_eq_true, not_or, Bool.not_eq_true] at hc
      rw [← hcopy]
      exact hc.1
  rw [process_query_full, hcore]
  simp only [generate_answer, hne, Bool.false_eq_true, if_false, hsynth]
  rfl

/-- Witness for C5 (amended): a concrete answerable query returns the stripped
synthesizer result. -/
theorem C5_answer_path_amended_witness :
    process_query_full (fun _ => SynthesisOutcome.success (some "cevap metni")) "e" ["ex"]
      [CosDist.fin (mkRat 1 5)] = pyStrip "cevap metni" :=
  C5_answer_path_amended (fun _ => SynthesisOutcome.success (some "cevap metni")) "e"
    ["ex"] [CosDist.fin (mkRat 1 5)] ["ex"] "cevap metni" (by decide) (by decide)

/-- C9: a fetch failure for one URL (exception on the request or on a non-2xx
status, or content that is empty after stripping) yields no content for that
URL, and a URL whose fetch yields no content contributes nothing: loading a
batch with it gives exactly the sentences of the batch without it. -/
theorem C9_fetch_isolation :
    (fetch_from_url FetchOutcome.httpError = none) ∧
    (∀ paras : List String, trimChars (joinWith " " paras).data = [] →
      fetch_from_url (FetchOutcome.content paras) = none) ∧
    (∀ (fetch : String → Option String) (l1 l2 : List String) (u : String),
      fetch u = none →
        load_content_from_links fetch (l1 ++ u :: l2) =
          load_content_from_links fetch (l1 ++ l2)) := by
  refine ⟨rfl, ?_, ?_⟩
  · intro paras h
    simp [fetch_from_url, h]
  · intro fetch l1 l2 u hu
    simp only [load_content_from_links, List.foldl_append, List.foldl_cons, hu]

/-- Witness for C9: dropping a failing URL from a concrete batch leaves the
loaded sentences unchanged. -/
theorem C9_fetch_isolation_witness :
    load_content_from_links
        (fun u => if u == "bad" then none else some "x. y") ["p", "bad", "q"] =
      load_content_from_links (fun u => if u == "bad" then none else some "x. y")
        ["p", "q"] :=
  C9_fetch_isolation.2.2 (fun u => if u == "bad" then none else some "x. y") ["p"] ["q"]
    "bad" (by decide)

/-- C10: the synthesizer wrapper returns the exact sentinel string of the
not-answerable path both when called with no context sentences and when the
HTTP call succeeds without a "response" field, so the caller cannot tell these
outcomes from a relevance miss by the returned string. -/
theorem C10_indistinguishable_sentinel :
    (∀ (synth : String → SynthesisOutcome) (q : String),
      generate_answer synth q [] = "Bunu bulamadım.") ∧
    (∀ (q : String) (ctx : List String), ctx ≠ [] →
      generate_answer (fun _ => SynthesisOutcome.success none) q ctx =
        "Bunu bulamadım.") ∧
    (∀ (synth : String → SynthesisOutcome) (q : String) (sel : List String)
        (dists : List CosDist),
      process_query_core q sel dists = QueryDecision.notFound →
        process_query_full synth q sel dists = "Bunu bulamadım.") := by
  refine ⟨?_, ?_, ?_⟩
  · intro synth q
    rfl
  · intro q ctx h
    have hne : ctx.isEmpty = false := by simpa [List.isEmpty_iff] using h
    rw [generate_answer, if_neg (by simp [hne])]
    rfl
  · intro synth q sel dists h
    simp [process_query_full, h]

/-- Witness for C10: a successful call whose JSON lacks the "response" field
returns the sentinel. -/
theorem C10_indistinguishable_sentinel_witness :
    generate_answer (fun _ => SynthesisOutcome.success none) "soru" ["metin parcasi"] =
      "Bunu bulamadım." :=
  C10_indistinguishable_sentinel.2.1 "soru" ["metin parcasi"] (by decide)
